import Mathlib

/-!
Verification of the editor-extension glue code: the retry-wrapped request
sender (`sendRequestWithRetry` in `editors/code/src/ctx.ts`) and the color
theme loader (`ColorTheme` and friends).

The TypeScript is shallowly embedded: the underlying `client.sendRequest`
becomes a function from the attempt index to an `Except` outcome, and the
observable side effects of the loop (send attempts, backoff sleeps) are
collected into an explicit event trace.  The JavaScript `Map` backing
`ColorTheme.rules` is embedded as an insertion-ordered association list with
`Map.get` / `Map.set` semantics.
-/

/-- Errors raised by the language client's `sendRequest`: a numeric JSON-RPC
error code plus a message.  Only the code is inspected by the source. -/
structure RpcError where
  code : Int
  message : String
deriving DecidableEq

namespace ErrorCodes

/-- Embedding of `lc.ErrorCodes.ContentModified` (LSP error code -32801). -/
def ContentModified : Int := -32801

end ErrorCodes

/-- Observable events of the retry loop: an underlying send attempt (with its
0-based index) or a timed sleep of the given number of milliseconds. -/
inductive RetryEvent where
  | attempt (idx : Nat)
  | sleep (ms : Nat)
deriving DecidableEq

/-- Final outcome of `sendRequestWithRetry`: a returned value, a re-raised
underlying `RpcError`, or the `throw 'unreachable'` sentinel after the loop. -/
inductive RetryOutcome (R : Type) where
  | ok (value : R)
  | thrown (err : RpcError)
  | unreachableSentinel
deriving DecidableEq

/-- Loop body of `sendRequestWithRetry`, one iteration per element of the
delay schedule, embedding

```ts
for (const delay of [2, 4, 6, 8, 10, null]) {
    try {
        return await client.sendRequest(...);
    } catch (err) {
        if (delay === null || err.code !== lc.ErrorCodes.ContentModified) {
            throw err;
        }
        await sleep(10 * (1 << delay));
    }
}
throw 'unreachable';
```

`send i` is the outcome of the `i`-th underlying `client.sendRequest` call;
the second component of the result is the trace of attempts and sleeps. -/
def sendRequestWithRetryGo {R : Type} (send : Nat → Except RpcError R) :
    List (Option Nat) → Nat → RetryOutcome R × List RetryEvent
  | [], _ => (.unreachableSentinel, [])
  | delay :: rest, attemptIdx =>
    match send attemptIdx with
    | .ok value => (.ok value, [.attempt attemptIdx])
    | .error err =>
      match delay with
      | none => (.thrown err, [.attempt attemptIdx])
      | some d =>
        if err.code = ErrorCodes.ContentModified then
          let p := sendRequestWithRetryGo send rest (attemptIdx + 1)
          (p.1, .attempt attemptIdx :: .sleep (10 * 2 ^ d) :: p.2)
        else
          (.thrown err, [.attempt attemptIdx])

/-- Delay schedule of the `for` loop: `[2, 4, 6, 8, 10, null]`. -/
def retrySchedule : List (Option Nat) := [some 2, some 4, some 6, some 8, some 10, none]

/-- Embedding of `sendRequestWithRetry`: run the loop over the full schedule
starting at attempt index 0. -/
def sendRequestWithRetry {R : Type} (send : Nat → Except RpcError R) :
    RetryOutcome R × List RetryEvent :=
  sendRequestWithRetryGo send retrySchedule 0

/-- Recognizer for attempt events. -/
def RetryEvent.isAttempt : RetryEvent → Bool
  | .attempt _ => true
  | .sleep _ => false

/-- Number of underlying send attempts recorded in a trace. -/
def attemptCount (evs : List RetryEvent) : Nat :=
  (evs.filter RetryEvent.isAttempt).length

/-- Sleeps recorded in a trace, in order, in milliseconds. -/
def sleepsOf (evs : List RetryEvent) : List Nat :=
  evs.filterMap fun e =>
    match e with
    | .sleep ms => some ms
    | _ => none

/-- Underlying send that fails with a "content modified" error on every
attempt (used as concrete witness input). -/
def sendAllContentModified : Nat → Except RpcError Nat :=
  fun _ => .error ⟨ErrorCodes.ContentModified, "content modified"⟩

/-- Underlying send that fails with a non-"content modified" error on every
attempt (used as concrete witness input). -/
def sendFatal : Nat → Except RpcError Nat :=
  fun _ => .error ⟨-32603, "internal error"⟩

/-- Underlying send that fails with "content modified" on attempts 0 and 1
and succeeds with 42 from attempt 2 on (used as concrete witness input). -/
def sendOkAtThird : Nat → Except RpcError Nat :=
  fun i => if i < 2 then .error ⟨ErrorCodes.ContentModified, "content modified"⟩ else .ok 42

/-- Style settings of a TextMate rule (`TextMateRuleSettings`): each field is
optional (`undefined` in the source becomes `none`). -/
structure TextMateRuleSettings where
  foreground : Option String
  background : Option String
  fontStyle : Option String
deriving DecidableEq

/-- A token-color rule (`TextMateRule`): its `scope` field may be absent,
a single scope string, or a list of scope strings. -/
structure TextMateRule where
  scope : Option (String ⊕ List String)
  settings : TextMateRuleSettings
deriving DecidableEq

/-- JavaScript `Map.get` on an insertion-ordered association list. -/
def mapGet {V : Type} : List (String × V) → String → Option V
  | [], _ => none
  | p :: rest, k => if p.1 = k then some p.2 else mapGet rest k

/-- JavaScript `Map.set` on an insertion-ordered association list: an existing
key keeps its position and gets the new value; a new key is appended. -/
def mapSet {V : Type} : List (String × V) → String → V → List (String × V)
  | [], k, v => [(k, v)]
  | p :: rest, k, v => if p.1 = k then (k, v) :: rest else p :: mapSet rest k v

/-- Embedding of JavaScript `String.prototype.startsWith`: `pre` is a prefix
of `s` (compared characterwise; `String.startsWith` itself does not reduce in
the kernel, so the character-list prefix test is used). -/
def strStartsWith (s pre : String) : Bool :=
  pre.data.isPrefixOf s.data

/-- The `ColorTheme` class: its `rules` field is a JavaScript `Map` from scope
strings to settings, embedded as an insertion-ordered association list. -/
structure ColorTheme where
  rules : List (String × TextMateRuleSettings)
deriving DecidableEq

/-- Scope expansion inside `ColorTheme.fromRules`:
`typeof rule.scope === 'undefined' ? [] : typeof rule.scope === 'string' ? [rule.scope] : rule.scope`. -/
def scopesOfRule (rule : TextMateRule) : List String :=
  match rule.scope with
  | none => []
  | some (.inl s) => [s]
  | some (.inr ss) => ss

/-- Embedding of `ColorTheme.fromRules`: for each rule in order, set the
rule's settings under every expanded scope key. -/
def ColorTheme.fromRules (rules : List TextMateRule) : ColorTheme :=
  ⟨rules.foldl
    (fun m rule => (scopesOfRule rule).foldl (fun m scope => mapSet m scope rule.settings) m)
    []⟩

/-- Embedding of `mergeRuleSettings`: per field,
`override.field ?? defaultSetting?.field`. -/
def mergeRuleSettings (defaultSetting : Option TextMateRuleSettings)
    (override : TextMateRuleSettings) : TextMateRuleSettings where
  foreground := override.foreground.or (defaultSetting.bind TextMateRuleSettings.foreground)
  background := override.background.or (defaultSetting.bind TextMateRuleSettings.background)
  fontStyle := override.fontStyle.or (defaultSetting.bind TextMateRuleSettings.fontStyle)

/-- Embedding of `ColorTheme.lookup`: for each concrete scope in order, fold
over the stored rules in insertion order, merging every rule whose key is a
string-prefix of the scope into the accumulated result. -/
def ColorTheme.lookup (t : ColorTheme) (scopes : List String) : TextMateRuleSettings :=
  scopes.foldl
    (fun res scope =>
      t.rules.foldl
        (fun res p => if strStartsWith scope p.1 then mergeRuleSettings (some res) p.2 else res)
        res)
    ⟨none, none, none⟩

/-- Embedding of `ColorTheme.mergeFrom`: for each entry of `other` in
insertion order, set `this.rules[key] := mergeRuleSettings(this.rules.get(key), value)`. -/
def ColorTheme.mergeFrom (t other : ColorTheme) : ColorTheme :=
  ⟨other.rules.foldl (fun m p => mapSet m p.1 (mergeRuleSettings (mapGet m p.1) p.2)) t.rules⟩

/-- Parsed content of a theme file, as `loadThemeFile` consumes it after
`jsonc.parse`: `obj?.tokenColors ?? []` and `obj?.include ?? []`. -/
structure ThemeFile where
  tokenColors : List TextMateRule
  «include» : List String
deriving DecidableEq

/-- Embedding of `loadThemeFile`.  `fs` models `fs.readFileSync` followed by
`jsonc.parse` (`none` when the file is unreadable, in which case the source's
`catch` returns an empty theme); `resolveInclude themePath inc` models
`path.join(path.dirname(themePath), include)`.  The `fuel` argument bounds
the include recursion, which the source leaves unbounded (no cycle guard). -/
def loadThemeFile (fs : String → Option ThemeFile)
    (resolveInclude : String → String → String) :
    Nat → String → ColorTheme
  | 0, _ => ⟨[]⟩
  | fuel + 1, themePath =>
    match fs themePath with
    | none => ⟨[]⟩
    | some obj =>
      obj.«include».foldl
        (fun res inc =>
          res.mergeFrom (loadThemeFile fs resolveInclude fuel (resolveInclude themePath inc)))
        (ColorTheme.fromRules obj.tokenColors)

/-- Concrete filesystem for witnesses: one readable theme file whose include
list names a missing path. -/
def fsWitness : String → Option ThemeFile :=
  fun p =>
    if p = "theme.json" then
      some ⟨[⟨some (Sum.inl "comment"), ⟨some "red", none, none⟩⟩], ["missing.json"]⟩
    else
      none

/-- C1: if every attempt fails with a "content modified" error, the sender
performs exactly 6 underlying send attempts, sleeping 10 * 2^d ms between
consecutive attempts for d strictly in the order [2, 4, 6, 8, 10], and ends
in a failure. -/
theorem c1_six_attempts_with_backoff {R : Type} (send : Nat → Except RpcError R)
    (h : ∀ i, i < 6 → ∃ e, send i = Except.error e ∧ e.code = ErrorCodes.ContentModified) :
    (sendRequestWithRetry send).2 =
      [.attempt 0, .sleep (10 * 2 ^ 2), .attempt 1, .sleep (10 * 2 ^ 4),
       .attempt 2, .sleep (10 * 2 ^ 6), .attempt 3, .sleep (10 * 2 ^ 8),
       .attempt 4, .sleep (10 * 2 ^ 10), .attempt 5] ∧
    attemptCount (sendRequestWithRetry send).2 = 6 ∧
    ∃ e, (sendRequestWithRetry send).1 = .thrown e := by
  obtain ⟨e0, h0, c0⟩ := h 0 (by norm_num)
  obtain ⟨e1, h1, c1⟩ := h 1 (by norm_num)
  obtain ⟨e2, h2, c2⟩ := h 2 (by norm_num)
  obtain ⟨e3, h3, c3⟩ := h 3 (by norm_num)
  obtain ⟨e4, h4, c4⟩ := h 4 (by norm_num)
  obtain ⟨e5, h5, c5⟩ := h 5 (by norm_num)
  refine ⟨?_, ?_, e5, ?_⟩ <;>
    simp [sendRequestWithRetry, retrySchedule, sendRequestWithRetryGo, attemptCount,
      RetryEvent.isAttempt, h0, c0, h1, c1, h2, c2, h3, c3, h4, c4, h5, c5]

/-- Witness for C1 at the concrete all-failing send. -/
theorem c1_witness :
    (sendRequestWithRetry sendAllContentModified).2 =
      [.attempt 0, .sleep (10 * 2 ^ 2), .attempt 1, .sleep (10 * 2 ^ 4),
       .attempt 2, .sleep (10 * 2 ^ 6), .attempt 3, .sleep (10 * 2 ^ 8),
       .attempt 4, .sleep (10 * 2 ^ 10), .attempt 5] ∧
    attemptCount (sendRequestWithRetry sendAllContentModified).2 = 6 ∧
    ∃ e, (sendRequestWithRetry sendAllContentModified).1 = .thrown e :=
  c1_six_attempts_with_backoff sendAllContentModified
    (fun _ _ => ⟨⟨ErrorCodes.ContentModified, "content modified"⟩, rfl, rfl⟩)

/-- C2: an error of a kind other than "content modified" on the first attempt
is re-raised unchanged after exactly one underlying send, with no sleeps. -/
theorem c2_fatal_error_rethrown_once {R : Type} (send : Nat → Except RpcError R)
    (e : RpcError) (h : send 0 = Except.error e)
    (hc : e.code ≠ ErrorCodes.ContentModified) :
    sendRequestWithRetry send = (.thrown e, [.attempt 0]) := by
  simp [sendRequestWithRetry, retrySchedule, sendRequestWithRetryGo, h, hc]

/-- Witness for C2 at the concrete fatally-failing send. -/
theorem c2_witness :
    sendRequestWithRetry sendFatal = (.thrown ⟨-32603, "internal error"⟩, [.attempt 0]) :=
  c2_fatal_error_rethrown_once sendFatal ⟨-32603, "internal error"⟩ rfl (by decide)

/-- C3 counterexample: when every attempt (including the final, 6th one)
fails with the "content modified" kind, the sender re-raises that original
error — it does not propagate the "unreachable" sentinel.  The claim as
stated is therefore false at this input. -/
theorem c3_counterexample :
    (sendRequestWithRetry sendAllContentModified).1 =
      .thrown ⟨ErrorCodes.ContentModified, "content modified"⟩ ∧
    (sendRequestWithRetry sendAllContentModified).1 ≠ .unreachableSentinel := by
  constructor <;> decide

/-- C3 amended: if every attempt fails with the "content modified" kind, the
sender re-raises the final (6th) attempt's original error unchanged; the
"unreachable" sentinel after the loop is dead code and is never produced. -/
theorem c3_amended_final_error_rethrown {R : Type} (send : Nat → Except RpcError R)
    (h : ∀ i, i < 6 → ∃ e, send i = Except.error e ∧ e.code = ErrorCodes.ContentModified) :
    ∃ e, send 5 = Except.error e ∧ (sendRequestWithRetry send).1 = .thrown e := by
  obtain ⟨e0, h0, c0⟩ := h 0 (by norm_num)
  obtain ⟨e1, h1, c1⟩ := h 1 (by norm_num)
  obtain ⟨e2, h2, c2⟩ := h 2 (by norm_num)
  obtain ⟨e3, h3, c3⟩ := h 3 (by norm_num)
  obtain ⟨e4, h4, c4⟩ := h 4 (by norm_num)
  obtain ⟨e5, h5, c5⟩ := h 5 (by norm_num)
  refine ⟨e5, h5, ?_⟩
  simp [sendRequestWithRetry, retrySchedule, sendRequestWithRetryGo,
    h0, c0, h1, c1, h2, c2, h3, c3, h4, c4, h5, c5]

/-- Witness for the amended C3 at the concrete all-failing send. -/
theorem c3_amended_witness :
    ∃ e, sendAllContentModified 5 = Except.error e ∧
      (sendRequestWithRetry sendAllContentModified).1 = .thrown e :=
  c3_amended_final_error_rethrown sendAllContentModified
    (fun _ _ => ⟨⟨ErrorCodes.ContentModified, "content modified"⟩, rfl, rfl⟩)

/-- C4: if attempts 1 through k-1 fail with "content modified" and attempt k
succeeds (1 ≤ k ≤ 6), the sender returns attempt k's result and performs
exactly k underlying send attempts. -/
theorem c4_success_at_attempt_k {R : Type} (send : Nat → Except RpcError R)
    (k : Nat) (hk1 : 1 ≤ k) (hk6 : k ≤ 6) (r : R)
    (hfail : ∀ i, i < k - 1 → ∃ e, send i = Except.error e ∧ e.code = ErrorCodes.ContentModified)
    (hsucc : send (k - 1) = Except.ok r) :
    (sendRequestWithRetry send).1 = .ok r ∧
    attemptCount (sendRequestWithRetry send).2 = k := by
  interval_cases k
  · simp_all [sendRequestWithRetry, retrySchedule, sendRequestWithRetryGo, attemptCount,
      RetryEvent.isAttempt]
  · obtain ⟨e0, h0, c0⟩ := hfail 0 (by norm_num)
    simp_all [sendRequestWithRetry, retrySchedule, sendRequestWithRetryGo, attemptCount,
      RetryEvent.isAttempt]
  · obtain ⟨e0, h0, c0⟩ := hfail 0 (by norm_num)
    obtain ⟨e1, h1, c1⟩ := hfail 1 (by norm_num)
    simp_all [sendRequestWithRetry, retrySchedule, sendRequestWithRetryGo, attemptCount,
      RetryEvent.isAttempt]
  · obtain ⟨e0, h0, c0⟩ := hfail 0 (by norm_num)
    obtain ⟨e1, h1, c1⟩ := hfail 1 (by norm_num)
    obtain ⟨e2, h2, c2⟩ := hfail 2 (by norm_num)
    simp_all [sendRequestWithRetry, retrySchedule, sendRequestWithRetryGo, attemptCount,
      RetryEvent.isAttempt]
  · obtain ⟨e0, h0, c0⟩ := hfail 0 (by norm_num)
    obtain ⟨e1, h1, c1⟩ := hfail 1 (by norm_num)
    obtain ⟨e2, h2, c2⟩ := hfail 2 (by norm_num)
    obtain ⟨e3, h3, c3⟩ := hfail 3 (by norm_num)
    simp_all [sendRequestWithRetry, retrySchedule, sendRequestWithRetryGo, attemptCount,
      RetryEvent.isAttempt]
  · obtain ⟨e0, h0, c0⟩ := hfail 0 (by norm_num)
    obtain ⟨e1, h1, c1⟩ := hfail 1 (by norm_num)
    obtain ⟨e2, h2, c2⟩ := hfail 2 (by norm_num)
    obtain ⟨e3, h3, c3⟩ := hfail 3 (by norm_num)
    obtain ⟨e4, h4, c4⟩ := hfail 4 (by norm_num)
    simp_all [sendRequestWithRetry, retrySchedule, sendRequestWithRetryGo, attemptCount,
      RetryEvent.isAttempt]

/-- Witness for C4 at k = 3 with the concrete send succeeding on attempt 3. -/
theorem c4_witness :
    (sendRequestWithRetry sendOkAtThird).1 = .ok 42 ∧
    attemptCount (sendRequestWithRetry sendOkAtThird).2 = 3 :=
  c4_success_at_attempt_k sendOkAtThird 3 (by norm_num) (by norm_num) 42
    (fun i hi => ⟨⟨ErrorCodes.ContentModified, "content modified"⟩, by
      simp only [sendOkAtThird]
      rw [if_pos (by omega)], rfl⟩)
    rfl

/-- Setting a key then reading that key yields the value just set. -/
theorem mapGet_mapSet_self {V : Type} (m : List (String × V)) (k : String) (v : V) :
    mapGet (mapSet m k v) k = some v := by
  induction m with
  | nil => simp [mapSet, mapGet]
  | cons p rest ih =>
    by_cases h : p.1 = k <;> simp [mapSet, mapGet, h, ih]

/-- Setting one key leaves reads of any other key unchanged. -/
theorem mapGet_mapSet_ne {V : Type} (m : List (String × V)) (k k2 : String) (v : V)
    (h : k2 ≠ k) :
    mapGet (mapSet m k2 v) k = mapGet m k := by
  induction m with
  | nil => simp [mapSet, mapGet, h]
  | cons p rest ih =>
    by_cases hp : p.1 = k2
    · subst hp
      simp [mapSet, mapGet, h]
    · simp [mapSet, mapGet, hp, ih]

/-- The `mergeFrom` fold leaves a key untouched when no merged-in entry has
that key. -/
theorem mergeFrom_fold_unchanged (es : List (String × TextMateRuleSettings)) (k : String)
    (h : ∀ p ∈ es, p.1 ≠ k) (m : List (String × TextMateRuleSettings)) :
    mapGet (es.foldl (fun m p => mapSet m p.1 (mergeRuleSettings (mapGet m p.1) p.2)) m) k =
      mapGet m k := by
  induction es generalizing m with
  | nil => rfl
  | cons p rest ih =>
    simp only [List.foldl_cons]
    rw [ih (fun q hq => h q (List.mem_cons_of_mem _ hq))]
    exact mapGet_mapSet_ne _ _ _ _ (h p (List.mem_cons_self _ _))

/-- The `mergeFrom` fold at a key that the merged-in entries bind (exactly
once) produces the merge of the accumulated value with the bound value. -/
theorem mergeFrom_fold_found (es : List (String × TextMateRuleSettings)) (k : String)
    (v : TextMateRuleSettings) (hNodup : (es.map Prod.fst).Nodup)
    (hfound : mapGet es k = some v) (m : List (String × TextMateRuleSettings)) :
    mapGet (es.foldl (fun m p => mapSet m p.1 (mergeRuleSettings (mapGet m p.1) p.2)) m) k =
      some (mergeRuleSettings (mapGet m k) v) := by
  induction es generalizing m with
  | nil => simp [mapGet] at hfound
  | cons p rest ih =>
    rw [List.map_cons, List.nodup_cons] at hNodup
    by_cases hp : p.1 = k
    · have hv : v = p.2 := by
        rw [mapGet, if_pos hp] at hfound
        exact (Option.some.injEq _ _ ▸ hfound.symm)
      have hrest : ∀ q ∈ rest, q.1 ≠ k := by
        intro q hq hqk
        exact hNodup.1 (hp ▸ hqk ▸ List.mem_map_of_mem Prod.fst hq)
      simp only [List.foldl_cons]
      rw [mergeFrom_fold_unchanged rest k hrest, hp, mapGet_mapSet_self, hv]
    · have hfound2 : mapGet rest k = some v := by
        rw [mapGet, if_neg hp] at hfound
        exact hfound
      simp only [List.foldl_cons]
      rw [ih hNodup.2 hfound2, mapGet_mapSet_ne _ _ _ _ hp]

/-- C10: `mergeFrom` only touches keys present in the merged-in theme — any
key that no entry of `other` binds reads the same before and after the merge
(in particular, a key absent from both themes is not created). -/
theorem c10_mergeFrom_frame (t other : ColorTheme) (k : String)
    (h : ∀ p ∈ other.rules, p.1 ≠ k) :
    mapGet (t.mergeFrom other).rules k = mapGet t.rules k :=
  mergeFrom_fold_unchanged other.rules k h t.rules

/-- Witness for C10: merging a theme binding only "keyword" leaves the key
"comment" unchanged. -/
theorem c10_witness :
    mapGet (ColorTheme.mergeFrom ⟨[("comment", ⟨some "red", none, none⟩)]⟩
        ⟨[("keyword", ⟨some "blue", none, none⟩)]⟩).rules "comment" =
      mapGet (⟨[("comment", ⟨some "red", none, none⟩)]⟩ : ColorTheme).rules "comment" :=
  c10_mergeFrom_frame ⟨[("comment", ⟨some "red", none, none⟩)]⟩
    ⟨[("keyword", ⟨some "blue", none, none⟩)]⟩ "comment"
    (by intro p hp; simp at hp; simp [hp])

/-- C6: after `A.mergeFrom B`, a key bound by `B` to `v` reads as `v` itself
when `A` does not bind the key, and as the field-wise override of `A`'s value
by `v` (`v`'s field where defined, `A`'s otherwise) when `A` binds it. -/
theorem c6_mergeFrom_override (A B : ColorTheme)
    (hB : (B.rules.map Prod.fst).Nodup) (k : String) (v : TextMateRuleSettings)
    (hGet : mapGet B.rules k = some v) :
    (mapGet A.rules k = none → mapGet (A.mergeFrom B).rules k = some v) ∧
    (∀ a, mapGet A.rules k = some a →
      mapGet (A.mergeFrom B).rules k =
        some ⟨v.foreground.or a.foreground, v.background.or a.background,
          v.fontStyle.or a.fontStyle⟩) := by
  have hmain : mapGet (A.mergeFrom B).rules k =
      some (mergeRuleSettings (mapGet A.rules k) v) :=
    mergeFrom_fold_found B.rules k v hB hGet A.rules
  constructor
  · intro hA
    rw [hmain, hA]
    simp [mergeRuleSettings]
  · intro a hA
    rw [hmain, hA]
    simp [mergeRuleSettings]

/-- Witness for C6: merging a theme that binds "x" into one that also binds
"x" yields the field-wise override at "x". -/
theorem c6_witness :
    mapGet (ColorTheme.mergeFrom ⟨[("x", ⟨some "red", none, some "italic"⟩)]⟩
        ⟨[("x", ⟨none, some "blue", some "bold"⟩)]⟩).rules "x" =
      some ⟨(none : Option String).or (some "red"), (some "blue").or none,
        (some "bold").or (some "italic")⟩ :=
  (c6_mergeFrom_override ⟨[("x", ⟨some "red", none, some "italic"⟩)]⟩
      ⟨[("x", ⟨none, some "blue", some "bold"⟩)]⟩ (by simp) "x"
      ⟨none, some "blue", some "bold"⟩ (by simp [mapGet])).2
    ⟨some "red", none, some "italic"⟩ (by simp [mapGet])

/-- C5: looking up ["comment.line"] against rules for "comment" and
"comment.line" (inserted in that order) merges both settings field-by-field,
with "comment.line"'s fields taking precedence on every conflicting field. -/
theorem c5_lookup_prefix_merge (s1 s2 : TextMateRuleSettings) :
    ColorTheme.lookup ⟨[("comment", s1), ("comment.line", s2)]⟩ ["comment.line"] =
      ⟨s2.foreground.or s1.foreground, s2.background.or s1.background,
        s2.fontStyle.or s1.fontStyle⟩ := by
  have h1 : strStartsWith "comment.line" "comment" = true := by decide
  have h2 : strStartsWith "comment.line" "comment.line" = true := by decide
  simp [ColorTheme.lookup, h1, h2, mergeRuleSettings]

/-- A fold of `mergeFrom` steps over includes that all load as the empty
theme leaves the accumulated theme unchanged. -/
theorem foldl_mergeFrom_empty (l : List String) (f : String → ColorTheme)
    (hf : ∀ x ∈ l, f x = ⟨[]⟩) (t : ColorTheme) :
    l.foldl (fun res inc => res.mergeFrom (f inc)) t = t := by
  induction l generalizing t with
  | nil => rfl
  | cons x rest ih =>
    simp only [List.foldl_cons]
    rw [hf x (List.mem_cons_self _ _),
      show ColorTheme.mergeFrom t ⟨[]⟩ = t from rfl]
    exact ih (fun y hy => hf y (List.mem_cons_of_mem _ hy)) t

/-- C7: loading a theme file whose includes all resolve to unreadable paths
raises no failure and yields exactly the theme built from the file's own
`tokenColors` rules alone. -/
theorem c7_unreadable_include_ignored (fs : String → Option ThemeFile)
    (resolveInclude : String → String → String) (fuel : Nat) (themePath : String)
    (obj : ThemeFile) (hread : fs themePath = some obj)
    (hinc : ∀ inc ∈ obj.«include», fs (resolveInclude themePath inc) = none) :
    loadThemeFile fs resolveInclude (fuel + 1) themePath =
      ColorTheme.fromRules obj.tokenColors := by
  have hempty : ∀ inc ∈ obj.«include»,
      loadThemeFile fs resolveInclude fuel (resolveInclude themePath inc) = ⟨[]⟩ := by
    intro inc hi
    cases fuel with
    | zero => rfl
    | succ f => simp [loadThemeFile, hinc inc hi]
  simp only [loadThemeFile, hread]
  exact foldl_mergeFrom_empty obj.«include»
    (fun inc => loadThemeFile fs resolveInclude fuel (resolveInclude themePath inc))
    hempty (ColorTheme.fromRules obj.tokenColors)

/-- Witness for C7 at the concrete one-file filesystem. -/
theorem c7_witness :
    loadThemeFile fsWitness (fun _ inc => inc) 1 "theme.json" =
      ColorTheme.fromRules [⟨some (Sum.inl "comment"), ⟨some "red", none, none⟩⟩] :=
  c7_unreadable_include_ignored fsWitness (fun _ inc => inc) 0 "theme.json"
    ⟨[⟨some (Sum.inl "comment"), ⟨some "red", none, none⟩⟩], ["missing.json"]⟩
    (by simp [fsWitness])
    (by intro inc hi; simp at hi; subst hi; simp [fsWitness])

/-- Folding constant-value `mapSet`s over a scope list makes every listed key
(and any key already bound to that value) read as that value. -/
theorem mapGet_foldl_mapSet_const {V : Type} (s : V) (ss : List String) (sc : String)
    (m : List (String × V)) (h : sc ∈ ss ∨ mapGet m sc = some s) :
    mapGet (ss.foldl (fun m scope => mapSet m scope s) m) sc = some s := by
  induction ss generalizing m with
  | nil =>
    rcases h with h | h
    · simp at h
    · exact h
  | cons x rest ih =>
    simp only [List.foldl_cons]
    apply ih
    rcases h with h | h
    · rcases List.mem_cons.mp h with rfl | hmem
      · right; exact mapGet_mapSet_self m sc s
      · left; exact hmem
    · by_cases hx : x = sc
      · subst hx; right; exact mapGet_mapSet_self m x s
      · right; rw [mapGet_mapSet_ne m sc x s hx]; exact h

/-- C8: `fromRules` registers a rule with scope list ["a", "b"] under both
keys with identical settings; an absent scope field contributes no key, a
single string contributes that one key, and a scope list contributes the
rule's settings to every listed key. -/
theorem c8_fromRules_scope_forms (s : TextMateRuleSettings) (sc : String)
    (ss : List String) (hsc : sc ∈ ss) :
    ColorTheme.fromRules [⟨some (Sum.inr ["a", "b"]), s⟩] = ⟨[("a", s), ("b", s)]⟩ ∧
    ColorTheme.fromRules [⟨none, s⟩] = ⟨[]⟩ ∧
    ColorTheme.fromRules [⟨some (Sum.inl sc), s⟩] = ⟨[(sc, s)]⟩ ∧
    mapGet (ColorTheme.fromRules [⟨some (Sum.inr ss), s⟩]).rules sc = some s := by
  refine ⟨rfl, rfl, by simp [ColorTheme.fromRules, scopesOfRule, mapSet], ?_⟩
  show mapGet (ss.foldl (fun m scope => mapSet m scope s) []) sc = some s
  exact mapGet_foldl_mapSet_const s ss sc [] (Or.inl hsc)

/-- Witness for C8 at concrete settings with sc = "b" ∈ ["a", "b"]. -/
theorem c8_witness :
    ColorTheme.fromRules [⟨some (Sum.inr ["a", "b"]), ⟨some "red", none, none⟩⟩] =
      ⟨[("a", ⟨some "red", none, none⟩), ("b", ⟨some "red", none, none⟩)]⟩ ∧
    ColorTheme.fromRules [⟨none, ⟨some "red", none, none⟩⟩] = ⟨[]⟩ ∧
    ColorTheme.fromRules [⟨some (Sum.inl "b"), ⟨some "red", none, none⟩⟩] =
      ⟨[("b", ⟨some "red", none, none⟩)]⟩ ∧
    mapGet (ColorTheme.fromRules
        [⟨some (Sum.inr ["a", "b"]), ⟨some "red", none, none⟩⟩]).rules "b" =
      some ⟨some "red", none, none⟩ :=
  c8_fromRules_scope_forms ⟨some "red", none, none⟩ "b" ["a", "b"] (by simp)

/-- C9: within one `fromRules` call, a later rule for the same scope key
replaces the earlier rule's settings record wholesale (no field merge), so a
field defined only by the earlier rule — here the foreground — is lost. -/
theorem c9_later_rule_replaces_earlier (k : String) (s1 s2 : TextMateRuleSettings) :
    mapGet (ColorTheme.fromRules
        [⟨some (Sum.inl k), s1⟩, ⟨some (Sum.inl k), s2⟩]).rules k = some s2 ∧
    (ColorTheme.fromRules [⟨some (Sum.inl k), ⟨some "red", none, none⟩⟩,
        ⟨some (Sum.inl k), ⟨none, some "blue", none⟩⟩]).rules =
      [(k, ⟨none, some "blue", none⟩)] := by
  constructor
  · show mapGet (mapSet (mapSet [] k s1) k s2) k = some s2
    exact mapGet_mapSet_self _ _ _
  · simp [ColorTheme.fromRules, scopesOfRule, mapSet]
